import Mathlib

/-!
Shallow embedding of the dockit schema layer: the files
src/dockit/schema/schema.py and src/dockit/backends/base.py.

Python dicts are modelled as association lists in insertion order; Python
values as the inductive PyVal; fallible code returns Except.  Code of the
repository that is imported by schema.py but not present under src
(common.register_schema, manager.get_indexes, serializer.PRIMITIVE_PROCESSOR)
is modelled from the spec where a claim needs it, and each such definition says
so in its doc comment.
-/

/-- Python values as they flow through dockit: None, booleans, integers,
strings, lists and string-keyed dicts.  A dict is an association list in
insertion order. -/
inductive PyVal where
  | none
  | bool (b : Bool)
  | int (n : Int)
  | str (s : String)
  | list (xs : List PyVal)
  | dict (xs : List (String × PyVal))

/-- Lookup in a Python dict modelled as an association list: the value at the
first matching key, as in d.get(k) or d[k]. -/
def alookup (l : List (String × α)) (k : String) : Option α :=
  match l with
  | [] => Option.none
  | (k2, v) :: rest => if k2 = k then some v else alookup rest k

/-- Store into a Python dict: replace the value at an existing key in place,
otherwise append the new binding, preserving insertion order, as in d[k] = v. -/
def aset (l : List (String × α)) (k : String) (v : α) : List (String × α) :=
  match l with
  | [] => [(k, v)]
  | (k2, v2) :: rest => if k2 = k then (k2, v) :: rest else (k2, v2) :: aset rest k v

/-- Remove a binding from a Python dict, as in d.pop(k, None) or del d[k]. -/
def aremove (l : List (String × α)) (k : String) : List (String × α) :=
  match l with
  | [] => []
  | (k2, v2) :: rest => if k2 = k then rest else (k2, v2) :: aremove rest k

/-- Python truthiness of a value, as used by the source in expressions such as
not self.pk and the proxy check on Meta. -/
def truthy : PyVal → Bool
  | .none => false
  | .bool b => b
  | .int n => n != 0
  | .str s => !s.isEmpty
  | .list xs => !xs.isEmpty
  | .dict xs => !xs.isEmpty

/-- A Schema instance: the two data dicts set up by Schema.pyinit, namely
the authoritative primitive mapping and the lazily populated typed cache,
plus the parent back-reference.  Other plain attributes of the Python object
live outside both dicts and are not part of the instance state the claims
concern. -/
inductive SchemaInstance where
  | mk (primitive_data : List (String × PyVal))
       (python_data : List (String × PyVal))
       (parent : Option SchemaInstance)

/-- Projection to the primitive mapping of the instance. -/
def SchemaInstance.primitive_data : SchemaInstance → List (String × PyVal)
  | .mk pd _ _ => pd

/-- Projection to the typed cache of the instance. -/
def SchemaInstance.python_data : SchemaInstance → List (String × PyVal)
  | .mk _ yd _ => yd

/-- Projection to the parent back-reference of the instance. -/
def SchemaInstance.parent : SchemaInstance → Option SchemaInstance
  | .mk _ _ p => p

/-- Replace the typed cache of the instance. -/
def SchemaInstance.setPythonData : SchemaInstance → List (String × PyVal) → SchemaInstance
  | .mk pd _ par, yd => .mk pd yd par

/-- Replace the primitive mapping of the instance. -/
def SchemaInstance.setPrimitiveData : SchemaInstance → List (String × PyVal) → SchemaInstance
  | .mk _ yd par, pd => .mk pd yd par

/-- A field descriptor, the external contract consumed by schema.py (the
descriptor types themselves live in fields.py, outside src): conversion to a
typed value given the primitive value and a parent, conversion back to a
primitive value, and the shape test.  The Python method to_python has a parent
defaulting to None; call sites here pass it explicitly. -/
structure FieldDescriptor where
  to_python : PyVal → Option SchemaInstance → PyVal
  to_primitive : PyVal → PyVal
  is_instance : PyVal → Bool

/-- The Options object bound as underscore-meta on every schema type.  Values
that a class Meta may override are stored as PyVal, since Python imposes no
type on them; db_table is the one attribute an Options instance lacks until
set, so it is an Option (hasattr is isSome).  The fields table starts empty
(a SortedDict in the source) and is populated by descriptor binding, which
lives in fields.py outside src; instance-level theorems quantify over it. -/
structure Options where
  object_name : String
  module_name : String
  app_label : PyVal
  verbose_name : PyVal
  verbose_name_plural : PyVal
  db_table : Option PyVal
  ordering : PyVal
  schema_key : PyVal
  collection : PyVal
  virtual : PyVal
  proxy : PyVal
  fields : List (String × FieldDescriptor)

/-- The recognized option names of a class Meta, Options.DEFAULT_NAMES in the
source. -/
def DEFAULT_NAMES : List String :=
  ["verbose_name", "db_table", "ordering", "schema_key",
   "app_label", "collection", "virtual", "proxy"]

/-- The django helper smart_str, external to this repository, modelled for the
values dockit feeds it; the list and dict renderings are placeholders never
reached by any claim. -/
def smart_str : PyVal → String
  | .none => "None"
  | .bool true => "True"
  | .bool false => "False"
  | .int n => toString n
  | .str s => s
  | .list _ => "pylist"
  | .dict _ => "pydict"

/-- The Python builtin str.lower, modelled character-wise. -/
def pyLower (s : String) : String := String.mk (s.data.map Char.toLower)

/-- The Python test name.startswith underscore used to drop private Meta
attributes, modelled on the first character. -/
def startsWithUnderscore (s : String) : Bool :=
  match s.data with
  | [] => false
  | c :: _ => c = '_'

/-- The django helper get_verbose_name, external to this repository; its exact
rendering is used by no claim, modelled as lowercasing. -/
def get_verbose_name (name : String) : String := pyLower name

/-- Options.default_schema_key: the string app_label dot module_name, each
through smart_str. -/
def Options.default_schema_key (o : Options) : String :=
  smart_str o.app_label ++ "." ++ smart_str (.str o.module_name)

/-- The dynamic setattr on an Options instance for a recognized option name,
as performed by the DEFAULT_NAMES loop of contribute_to_class. -/
def Options.setOption (o : Options) (name : String) (v : PyVal) : Options :=
  if name = "verbose_name" then { o with verbose_name := v }
  else if name = "db_table" then { o with db_table := some v }
  else if name = "ordering" then { o with ordering := v }
  else if name = "schema_key" then { o with schema_key := v }
  else if name = "app_label" then { o with app_label := v }
  else if name = "collection" then { o with collection := v }
  else if name = "virtual" then { o with virtual := v }
  else if name = "proxy" then { o with proxy := v }
  else o

/-- The dynamic getattr on an Options instance for a recognized option name,
with absence (hasattr false) as Option.none; db_table is the one recognized
name an Options instance can lack. -/
def Options.getOption (o : Options) (name : String) : Option PyVal :=
  if name = "verbose_name" then some o.verbose_name
  else if name = "db_table" then o.db_table
  else if name = "ordering" then some o.ordering
  else if name = "schema_key" then some o.schema_key
  else if name = "app_label" then some o.app_label
  else if name = "collection" then some o.collection
  else if name = "virtual" then some o.virtual
  else if name = "proxy" then some o.proxy
  else Option.none

/-- Errors raised by the embedded code paths. -/
inductive SchemaError where
  | assertionError
  | metaTypeError (keys : List String)
  | proxyValueError
  | registrationError (key : String)
deriving DecidableEq

/-- One pass of the loop over DEFAULT_NAMES in Options.contribute_to_class:
when the name is among the Meta attributes, set it on the Options and pop it
from the remaining attributes. -/
def Options.applyMetaName (st : Options × List (String × PyVal)) (name : String) :
    Options × List (String × PyVal) :=
  match alookup st.2 name with
  | some v => (st.1.setOption name v, aremove st.2 name)
  | Option.none => st

/-- The default values contribute_to_class computes before any class Meta
override is applied: module_name is the lowercased type name, verbose_name
comes from get_verbose_name, and collection and schema_key are both set to
default_schema_key.  The Meta class is modelled by its attribute dict as an
association list; attributes a Meta class would inherit from its own bases are
not distinguished from its own in this model.  The override pass then drops
private names starting with an underscore, pops each recognized name onto the
Options, pops verbose_name_plural with the verbose_name plus s as default, and
raises the TypeError listing any leftover attribute keys. -/
def Options.defaulted (object_name : String) (app_label : PyVal) : Options :=
  let o0 : Options :=
    { object_name := object_name
      module_name := pyLower object_name
      app_label := app_label
      verbose_name := .str (get_verbose_name object_name)
      verbose_name_plural := .none
      db_table := Option.none
      ordering := .list [.str "_id"]
      schema_key := .none
      collection := .none
      virtual := .bool false
      proxy := .bool false
      fields := [] }
  { o0 with collection := .str o0.default_schema_key,
            schema_key := .str o0.default_schema_key }

/-- Options construction followed by Options.contribute_to_class, applying any
class Meta overrides to the defaulted Options. -/
def Options.contribute_to_class (object_name : String) (app_label : PyVal)
    (meta : Option (List (String × PyVal))) : Except SchemaError Options :=
  let o0 := Options.defaulted object_name app_label
  match meta with
  | Option.none =>
      .ok { o0 with verbose_name_plural := .str (smart_str o0.verbose_name ++ "s") }
  | some m =>
      let meta_attrs := m.filter (fun kv => !startsWithUnderscore kv.1)
      let st := DEFAULT_NAMES.foldl Options.applyMetaName (o0, meta_attrs)
      let rest := st.2
      let vnp : PyVal :=
        match alookup rest "verbose_name_plural" with
        | some v => v
        | Option.none => PyVal.str (smart_str st.1.verbose_name ++ "s")
      let rest2 := aremove rest "verbose_name_plural"
      let o2 := { st.1 with verbose_name_plural := vnp }
      if rest2.isEmpty then .ok o2
      else .error (.metaTypeError (rest2.map (fun kv => kv.1)))

/-- The proxy branch of SchemaBase.dunder-new: for every recognized option name
not set on the proxy Meta, copy the value from the ancestor Options onto the
Meta when the ancestor has it. -/
def proxyMergeStep (parent_meta : Options) (m : List (String × PyVal))
    (key : String) : List (String × PyVal) :=
  match alookup m key with
  | some _ => m
  | Option.none =>
      match parent_meta.getOption key with
      | some v => aset m key v
      | Option.none => m

/-- The proxy branch of SchemaBase.dunder-new, the loop over DEFAULT_NAMES
applying proxyMergeStep to the Meta dict of the proxy. -/
def proxy_merge_meta (meta : List (String × PyVal)) (parent_meta : Options) :
    List (String × PyVal) :=
  DEFAULT_NAMES.foldl (proxyMergeStep parent_meta) meta

/-- Modelled from the spec: register_schema is imported from common, which is
not under src.  Spec section 4.1 step 6 and section 5: register the pair of
schema key and type in the process-wide catalog; re-registration of the same
key with the same type is a no-op, and the same key with a different type is a
registration error. -/
def register_schema (registry : List (String × String)) (key : String)
    (type_name : String) : Except SchemaError (List (String × String)) :=
  match alookup registry key with
  | Option.none => .ok (registry ++ [(key, type_name)])
  | some t => if t = type_name then .ok registry
              else .error (.registrationError key)

/-- SchemaBase.dunder-new, restricted to the behavior the claims exercise:
Meta resolution including the proxy branch, app_label resolution, the call to
Options.contribute_to_class, and catalog registration for non-virtual types.
Field collection and binding populate Options.fields at runtime through
fields.py, which is outside src; the instance model quantifies over the
resulting table.  attr_meta is the Meta popped from the class body,
inherited_meta is the Meta visible through the bases when the body has none,
parent_options is the underscore-meta found on the bases (absent when no base
is a schema), and module_app_label is the fallback label taken from the
module path. -/
def schema_base_new (object_name : String)
    (attr_meta : Option (List (String × PyVal)))
    (inherited_meta : Option (List (String × PyVal)))
    (parent_options : Option Options)
    (module_app_label : String)
    (registry : List (String × String)) :
    Except SchemaError (Options × List (String × String)) :=
  let metaRes : Except SchemaError (Option (List (String × PyVal))) :=
    match attr_meta with
    | Option.none => .ok inherited_meta
    | some m =>
        if truthy ((alookup m "proxy").getD (.bool false)) then
          match parent_options with
          | Option.none => .error .proxyValueError
          | some po => .ok (some (proxy_merge_meta m po))
        else .ok (some m)
  match metaRes with
  | .error e => .error e
  | .ok meta =>
    let app_label : PyVal :=
      match meta with
      | some m =>
          match alookup m "app_label" with
          | some PyVal.none => .str module_app_label
          | some v => v
          | Option.none => .str module_app_label
      | Option.none => .str module_app_label
    match Options.contribute_to_class object_name app_label meta with
    | .error e => .error e
    | .ok opts =>
        if truthy opts.virtual then .ok (opts, registry)
        else
          match register_schema registry (smart_str opts.schema_key) object_name with
          | .error e => .error e
          | .ok r2 => .ok (opts, r2)

/-- Schema.to_python (classmethod): a primitive mapping, with None replaced by
an empty dict, becomes the primitive data of a fresh instance whose typed
cache starts empty and whose parent is the supplied back-reference; the
constructor assigns these through plain attribute writes, since the names
starting with an underscore are not declared fields. -/
def Schema.to_python (val : Option (List (String × PyVal)))
    (parent : Option SchemaInstance) : SchemaInstance :=
  .mk (val.getD []) [] parent

/-- The loop body of the materialization in Schema.to_primitive: one cached
entry of the typed cache is pumped back into the primitive dict, through the
descriptor to_primitive for a declared field and verbatim otherwise. -/
def materializeStep (meta : Options) (pd : List (String × PyVal))
    (kv : String × PyVal) : List (String × PyVal) :=
  match alookup meta.fields kv.1 with
  | some fd => aset pd kv.1 (fd.to_primitive kv.2)
  | Option.none => aset pd kv.1 kv.2

/-- The schema-shaped branch of Schema.to_primitive: every cached entry of the
typed cache is pumped back into the primitive dict, which the caller then
reads off the instance. -/
def Schema.materialize (meta : Options) (s : SchemaInstance) : SchemaInstance :=
  s.setPrimitiveData (s.python_data.foldl (materializeStep meta) s.primitive_data)

/-- Schema.to_primitive (classmethod).  A schema-shaped value, one carrying
primitive data, a typed cache and an Options, is materialized and its
primitive dict returned; any other value must already be a dict, a list or
None, per the assertion in the source, and is returned unchanged; any scalar
fails that assertion. -/
def Schema.to_primitive (meta : Options) :
    Sum SchemaInstance PyVal → Except SchemaError PyVal
  | .inl s => .ok (.dict (Schema.materialize meta s).primitive_data)
  | .inr v =>
      match v with
      | .dict xs => .ok (.dict xs)
      | .list xs => .ok (.list xs)
      | .none => .ok .none
      | _ => .error .assertionError

/-- Schema.dunder-getattribute restricted to declared field names; any other
name falls through to the default object attribute lookup, which touches
neither dict, and is answered with Option.none here.  The read returns the
value, the instance after the read, and the number of descriptor to_python
invocations the read performed: a cached name is answered from the typed
cache, otherwise the primitive entry (None when missing) is converted with
the instance as parent, cached, and returned. -/
def Schema.getattribute (meta : Options) (s : SchemaInstance) (name : String) :
    Option (PyVal × SchemaInstance × Nat) :=
  match alookup meta.fields name with
  | some fd =>
      match alookup s.python_data name with
      | some v => some (v, s, 0)
      | Option.none =>
          let v := fd.to_python ((alookup s.primitive_data name).getD .none) (some s)
          some (v, s.setPythonData (aset s.python_data name v), 1)
  | Option.none => Option.none

/-- Schema.dunder-setattr: writing a declared field first coerces the value
through the descriptor to_python (with the default parent None) when
is_instance rejects it, then stores it in the typed cache; the primitive dict
is not touched.  Writing any other name is a plain attribute write outside
both dicts, the identity on the modelled state. -/
def Schema.setattr (meta : Options) (s : SchemaInstance) (name : String)
    (val : PyVal) : SchemaInstance :=
  match alookup meta.fields name with
  | some fd =>
      let val2 := if fd.is_instance val then val else fd.to_python val Option.none
      s.setPythonData (aset s.python_data name val2)
  | Option.none => s

/-- Schema.dunder-getitem.  The pp argument models PRIMITIVE_PROCESSOR.to_python
from serializer.py, which is not under src; the spec calls it a generic
primitive-processor conversion, and no claim depends on its value.  A declared
field delegates to attribute access; a key present only in the primitive dict
is converted, seeded into the typed cache and returned; otherwise the read is
served from the typed cache, with Option.none standing for the KeyError. -/
def Schema.getitem (pp : PyVal → PyVal) (meta : Options) (s : SchemaInstance)
    (key : String) : Option (PyVal × SchemaInstance) :=
  match alookup meta.fields key with
  | some _ => (Schema.getattribute meta s key).map (fun r => (r.1, r.2.1))
  | Option.none =>
      match alookup s.primitive_data key, alookup s.python_data key with
      | some r, Option.none =>
          let p := pp r
          some (p, s.setPythonData (aset s.python_data key p))
      | _, _ => (alookup s.python_data key).map (fun v => (v, s))

/-- Schema.dunder-hasitem: a declared field name is always reported present;
any other key only when the typed cache holds it. -/
def Schema.hasitem (meta : Options) (s : SchemaInstance) (key : String) : Bool :=
  match alookup meta.fields key with
  | some _ => true
  | Option.none => (alookup s.python_data key).isSome

/-- The storage backend as the document lifecycle sees it: the id field name
answered by get_id_field_name, and whether the save call succeeds or raises a
backend error. -/
structure Backend where
  id_field_name : String
  save_ok : Bool

/-- BaseDocumentStorage.get_id: data.get of the id field name. -/
def Backend.get_id (b : Backend) (data : List (String × PyVal)) : PyVal :=
  (alookup data b.id_field_name).getD .none

/-- The observable calls Document.save makes, in order: the pre-save signal,
the materialization to primitive form, the backend save call with collection
and data, each indexer on_document_save, and the post-save signal with its
created flag. -/
inductive SaveEvent where
  | preSave
  | materialize
  | backendSave (collection : PyVal) (data : List (String × PyVal))
  | indexerSave (indexer : String)
  | postSave (created : Bool)

/-- Document.save.  The indexers argument models the values of
self.objects.get_indexes() — modelled from the spec, since manager.py is not
under src: spec section 4.4 step 5 says every indexer currently registered on
the manager of the document is invoked in registration order.  The created
flag is computed from id resolvability (Python truthiness of the pk) before
anything else; then the pre-save signal fires, the instance is materialized,
and the backend save is invoked — when it raises, the sequence aborts with no
indexer call and no post-save signal; when it succeeds, each indexer fires in
order and the post-save signal carries the created flag.  Returns the call
trace and, on success, the materialized instance. -/
def Document.save (backend : Backend) (meta : Options) (indexers : List String)
    (s : SchemaInstance) : List SaveEvent × Option SchemaInstance :=
  let created := !truthy (backend.get_id s.primitive_data)
  let s2 := Schema.materialize meta s
  if backend.save_ok then
    (SaveEvent.preSave :: SaveEvent.materialize ::
       SaveEvent.backendSave meta.collection s2.primitive_data ::
       (indexers.map SaveEvent.indexerSave ++ [SaveEvent.postSave created]),
     some s2)
  else
    ([SaveEvent.preSave, SaveEvent.materialize,
      SaveEvent.backendSave meta.collection s2.primitive_data],
     Option.none)

/-- A BaseDocumentStorage instance carries no per-instance indexer state, only
its identity; the indexer mapping lives on the class. -/
structure BackendInstance where
  instance_id : Nat
deriving DecidableEq

/-- The underscore-indexers dict of BaseDocumentStorage: a class attribute,
hence a single mapping shared by every instance of the storage class. -/
structure IndexerRegistry where
  indexers : List (String × String)
deriving DecidableEq

/-- BaseDocumentStorage.register_indexer, a classmethod: it stores into the
class-level dict; the instance it is reached through plays no part. -/
def register_indexer (_receiver : BackendInstance) (st : IndexerRegistry)
    (name index_cls : String) : IndexerRegistry :=
  IndexerRegistry.mk (aset st.indexers name index_cls)

/-- BaseDocumentStorage.get_indexer, a classmethod reading the class-level
dict; Option.none models the KeyError for a missing name. -/
def get_indexer (_receiver : BackendInstance) (st : IndexerRegistry)
    (name : String) : Option String :=
  alookup st.indexers name

/-- Rewriting the projections of setPythonData. -/
theorem setPythonData_python_data (s : SchemaInstance) (yd : List (String × PyVal)) :
    (s.setPythonData yd).python_data = yd := by
  cases s
  rfl

/-- Rewriting the primitive dict through setPythonData. -/
theorem setPythonData_primitive_data (s : SchemaInstance) (yd : List (String × PyVal)) :
    (s.setPythonData yd).primitive_data = s.primitive_data := by
  cases s
  rfl

/-- Rewriting the projections of setPrimitiveData. -/
theorem setPrimitiveData_primitive_data (s : SchemaInstance) (pd : List (String × PyVal)) :
    (s.setPrimitiveData pd).primitive_data = pd := by
  cases s
  rfl

/-- Rewriting the typed cache through setPrimitiveData. -/
theorem setPrimitiveData_python_data (s : SchemaInstance) (pd : List (String × PyVal)) :
    (s.setPrimitiveData pd).python_data = s.python_data := by
  cases s
  rfl

/-- Looking up the key just stored finds the stored value. -/
theorem alookup_aset_self (l : List (String × α)) (k : String) (v : α) :
    alookup (aset l k v) k = some v := by
  induction l with
  | nil => simp [aset, alookup]
  | cons kv rest ih =>
      by_cases h : kv.1 = k
      · simp [aset, alookup, h]
      · simp [aset, alookup, h, ih]

/-- Storing under one key leaves lookups of any other key unchanged. -/
theorem alookup_aset_ne (l : List (String × α)) (k k2 : String) (v : α)
    (h : k ≠ k2) : alookup (aset l k v) k2 = alookup l k2 := by
  induction l with
  | nil => simp [aset, alookup, h]
  | cons kv rest ih =>
      by_cases h2 : kv.1 = k
      · simp [aset, alookup, h2, h]
      · simp only [aset, alookup, if_neg h2]
        by_cases h3 : kv.1 = k2
        · simp [h3]
        · simp [h3, ih]

/-- Removing one key leaves lookups of any other key unchanged. -/
theorem alookup_aremove_ne (l : List (String × α)) (k k2 : String)
    (h : k ≠ k2) : alookup (aremove l k) k2 = alookup l k2 := by
  induction l with
  | nil => simp [aremove]
  | cons kv rest ih =>
      by_cases h2 : kv.1 = k
      · have h3 : kv.1 ≠ k2 := by rw [h2]; exact h
        simp [aremove, alookup, h2, h3, h]
      · simp only [aremove, alookup, if_neg h2]
        by_cases h3 : kv.1 = k2
        · simp [h3]
        · simp [h3, ih]

/-- A binding under a different key survives the removal of another key. -/
theorem mem_aremove_ne (l : List (String × α)) (k : String) (kv : String × α)
    (h : kv.1 ≠ k) (hm : kv ∈ l) : kv ∈ aremove l k := by
  induction l with
  | nil => cases hm
  | cons hd rest ih =>
      by_cases h2 : hd.1 = k
      · rcases List.mem_cons.mp hm with he | ht
        · exact absurd (he ▸ h2) (by rw [he] at h ⊢; exact h)
        · simpa [aremove, h2] using ht
      · rcases List.mem_cons.mp hm with he | ht
        · simp [aremove, h2, List.mem_cons, he]
        · simp [aremove, h2, List.mem_cons, ih ht]

/-- A key absent from a dict stays absent after filtering. -/
theorem alookup_filter_none (l : List (String × α)) (p : String × α → Bool)
    (k : String) (h : alookup l k = Option.none) :
    alookup (l.filter p) k = Option.none := by
  induction l with
  | nil => simp [alookup]
  | cons kv rest ih =>
      by_cases h2 : kv.1 = k
      · rw [show alookup (kv :: rest) k = some kv.2 from by simp [alookup, h2]] at h
        cases h
      · have h3 : alookup rest k = Option.none := by
          simpa [alookup, h2] using h
        by_cases hp : p kv
        · simp [List.filter, hp, alookup, h2, ih h3]
        · simp [List.filter, hp, ih h3]

/-- The keys reachable in a dict after a store. -/
theorem mem_map_fst_aset (l : List (String × α)) (k : String) (v : α)
    (x : String) : x ∈ (aset l k v).map Prod.fst ↔ x ∈ l.map Prod.fst ∨ x = k := by
  induction l with
  | nil => simp [aset]
  | cons kv rest ih =>
      by_cases h2 : kv.1 = k
      · subst h2
        simp only [aset, if_pos, List.map_cons, List.mem_cons]
        tauto
      · simp only [aset, if_neg h2, List.map_cons, List.mem_cons, ih]
        tauto

/-- Storing preserves the uniqueness of dict keys. -/
theorem nodup_aset (l : List (String × α)) (k : String) (v : α)
    (h : (l.map Prod.fst).Nodup) : ((aset l k v).map Prod.fst).Nodup := by
  induction l with
  | nil => simp [aset]
  | cons kv rest ih =>
      rw [List.map_cons, List.nodup_cons] at h
      by_cases h2 : kv.1 = k
      · subst h2
        simpa [aset, List.nodup_cons] using h
      · rw [show aset (kv :: rest) k v = kv :: aset rest k v from by simp [aset, h2]]
        rw [List.map_cons, List.nodup_cons]
        refine ⟨fun hmem => ?_, ih h.2⟩
        rcases (mem_map_fst_aset rest k v kv.1).mp hmem with hin | heq
        · exact h.1 hin
        · exact h2 heq

/-- Materialization leaves the lookup of a key that the typed cache does not
mention unchanged in the primitive dict. -/
theorem alookup_foldl_materializeStep_notmem (meta : Options) (f : String) :
    ∀ (l : List (String × PyVal)) (pd : List (String × PyVal)),
      f ∉ l.map Prod.fst →
      alookup (l.foldl (materializeStep meta) pd) f = alookup pd f := by
  intro l
  induction l with
  | nil => intro pd _; rfl
  | cons kv rest ih =>
      intro pd hnm
      rw [List.map_cons] at hnm
      have hne : kv.1 ≠ f := fun e => hnm (List.mem_cons.mpr (Or.inl e.symm))
      have hrest : f ∉ rest.map Prod.fst := fun e => hnm (List.mem_cons.mpr (Or.inr e))
      rw [List.foldl_cons, ih _ hrest]
      unfold materializeStep
      cases alookup meta.fields kv.1 with
      | none => exact alookup_aset_ne pd kv.1 f kv.2 hne
      | some fd => exact alookup_aset_ne pd kv.1 f (fd.to_primitive kv.2) hne

/-- Materialization writes the converted cached value of a declared field into
the primitive dict, whatever that dict held before. -/
theorem alookup_foldl_materializeStep (meta : Options) (f : String)
    (fd : FieldDescriptor) (hf : alookup meta.fields f = some fd) :
    ∀ (l : List (String × PyVal)) (pd : List (String × PyVal)) (v : PyVal),
      (l.map Prod.fst).Nodup → alookup l f = some v →
      alookup (l.foldl (materializeStep meta) pd) f = some (fd.to_primitive v) := by
  intro l
  induction l with
  | nil => intro pd v _ hv; cases hv
  | cons kv rest ih =>
      intro pd v hnd hv
      rw [List.map_cons, List.nodup_cons] at hnd
      by_cases h2 : kv.1 = f
      · have hvv : kv.2 = v := by
          rw [show alookup (kv :: rest) f = some kv.2 from by simp [alookup, h2]] at hv
          exact Option.some.inj hv
        subst hvv
        rw [List.foldl_cons]
        rw [alookup_foldl_materializeStep_notmem meta f rest _ (h2 ▸ hnd.1)]
        unfold materializeStep
        rw [h2, hf]
        exact alookup_aset_self pd f (fd.to_primitive kv.2)
      · have hv2 : alookup rest f = some v := by simpa [alookup, h2] using hv
        rw [List.foldl_cons]
        exact ih _ v hnd.2 hv2

/-- An Options value with no declared fields, as produced for a plain document
type named Doc in an app named app, for concrete evaluations. -/
def bareOptions : Options :=
  { object_name := "Doc"
    module_name := "doc"
    app_label := .str "app"
    verbose_name := .str "doc"
    verbose_name_plural := .str "docs"
    db_table := Option.none
    ordering := .list [.str "_id"]
    schema_key := .str "app.doc"
    collection := .str "app.doc"
    virtual := .bool false
    proxy := .bool false
    fields := [] }

/-- An integer-like field descriptor for concrete evaluations: to_python
parses decimal strings and passes integers through, to_primitive is the
identity on the typed value, is_instance accepts exactly integers. -/
def ageField : FieldDescriptor :=
  { to_python := fun v _ =>
      match v with
      | .str s => .int ((s.toInt?).getD 0)
      | .int n => .int n
      | _ => .int 0
    to_primitive := fun v => v
    is_instance := fun v =>
      match v with
      | .int _ => true
      | _ => false }

/-- An Options value declaring the single integer field age. -/
def personOptions : Options :=
  { bareOptions with fields := [("age", ageField)] }

/-- C2: an instance built from a primitive mapping by to_python and
materialized immediately, no field read or written in between, returns a
mapping equal to the one supplied: the typed cache starts empty, so the
materialization loop runs over nothing and no conversion occurs. -/
theorem C2_roundtrip (meta : Options) (p : List (String × PyVal))
    (parent : Option SchemaInstance) :
    Schema.to_primitive meta (Sum.inl (Schema.to_python (some p) parent))
      = Except.ok (PyVal.dict p) := rfl

/-- C3: writing a declared field stores the value, coerced through the
descriptor to_python when is_instance rejects it, into the typed cache; the
primitive dict is untouched at write time; and a subsequent materialization
writes the descriptor to_primitive of the coerced value into the primitive
entry of the field, whatever that entry held before the write. -/
theorem C3_write_then_materialize (meta : Options) (s : SchemaInstance)
    (f : String) (fd : FieldDescriptor) (v : PyVal)
    (hf : alookup meta.fields f = some fd)
    (hnd : (s.python_data.map Prod.fst).Nodup) :
    alookup (Schema.setattr meta s f v).python_data f
        = some (if fd.is_instance v then v else fd.to_python v Option.none)
    ∧ (Schema.setattr meta s f v).primitive_data = s.primitive_data
    ∧ alookup (Schema.materialize meta (Schema.setattr meta s f v)).primitive_data f
        = some (fd.to_primitive
            (if fd.is_instance v then v else fd.to_python v Option.none)) := by
  have hset : Schema.setattr meta s f v
      = s.setPythonData (aset s.python_data f
          (if fd.is_instance v then v else fd.to_python v Option.none)) := by
    simp only [Schema.setattr, hf]
  refine ⟨?_, ?_, ?_⟩
  · rw [hset, setPythonData_python_data]
    exact alookup_aset_self _ _ _
  · rw [hset, setPythonData_primitive_data]
  · rw [hset]
    unfold Schema.materialize
    rw [setPrimitiveData_primitive_data, setPythonData_python_data,
        setPythonData_primitive_data]
    exact alookup_foldl_materializeStep meta f fd hf _ _ _
      (nodup_aset _ _ _ hnd) (alookup_aset_self _ _ _)

/-- C3 witness: on a Person-like instance whose stored age is the string old,
writing age as the string 31 coerces to the integer 31, leaves the stale
primitive entry in place, and materialization then yields 31. -/
theorem C3_write_then_materialize_witness :
    (alookup personOptions.fields "age" = some ageField
      ∧ ((SchemaInstance.mk [("age", PyVal.str "old")] [] Option.none).python_data.map
           Prod.fst).Nodup)
    ∧ (alookup (Schema.setattr personOptions
           (SchemaInstance.mk [("age", PyVal.str "old")] [] Option.none)
           "age" (PyVal.str "31")).python_data "age"
         = some (if ageField.is_instance (PyVal.str "31") then PyVal.str "31"
                 else ageField.to_python (PyVal.str "31") Option.none)
       ∧ (Schema.setattr personOptions
           (SchemaInstance.mk [("age", PyVal.str "old")] [] Option.none)
           "age" (PyVal.str "31")).primitive_data = [("age", PyVal.str "old")]
       ∧ alookup (Schema.materialize personOptions
           (Schema.setattr personOptions
             (SchemaInstance.mk [("age", PyVal.str "old")] [] Option.none)
             "age" (PyVal.str "31"))).primitive_data "age"
         = some (ageField.to_primitive
             (if ageField.is_instance (PyVal.str "31") then PyVal.str "31"
              else ageField.to_python (PyVal.str "31") Option.none))) :=
  ⟨⟨rfl, List.nodup_nil⟩,
    C3_write_then_materialize personOptions
      (SchemaInstance.mk [("age", PyVal.str "old")] [] Option.none)
      "age" ageField (PyVal.str "31") rfl List.nodup_nil⟩

/-- C4: the first read of a declared field not yet in the typed cache converts
the primitive entry (None when missing) through the descriptor to_python with
the instance as parent, caches the result and returns it, one invocation; the
second read returns the identical cached value with no further invocation, so
two reads invoke to_python exactly once. -/
theorem C4_lazy_memoized_read (meta : Options) (s : SchemaInstance)
    (f : String) (fd : FieldDescriptor)
    (hf : alookup meta.fields f = some fd)
    (hmiss : alookup s.python_data f = Option.none) :
    Schema.getattribute meta s f
      = some (fd.to_python ((alookup s.primitive_data f).getD .none) (some s),
          s.setPythonData (aset s.python_data f
            (fd.to_python ((alookup s.primitive_data f).getD .none) (some s))), 1)
    ∧ Schema.getattribute meta
        (s.setPythonData (aset s.python_data f
          (fd.to_python ((alookup s.primitive_data f).getD .none) (some s)))) f
      = some (fd.to_python ((alookup s.primitive_data f).getD .none) (some s),
          s.setPythonData (aset s.python_data f
            (fd.to_python ((alookup s.primitive_data f).getD .none) (some s))), 0) := by
  constructor
  · simp only [Schema.getattribute, hf, hmiss]
  · simp only [Schema.getattribute, hf, setPythonData_python_data, alookup_aset_self]

/-- C4 witness: on a fresh Person-like instance storing age 31, the first read
of age converts and caches, the second read is served from the cache. -/
theorem C4_lazy_memoized_read_witness :
    (alookup personOptions.fields "age" = some ageField
      ∧ alookup (SchemaInstance.mk [("age", PyVal.int 31)] [] Option.none).python_data
          "age" = Option.none)
    ∧ (Schema.getattribute personOptions
         (SchemaInstance.mk [("age", PyVal.int 31)] [] Option.none) "age"
       = some (ageField.to_python
             ((alookup (SchemaInstance.mk [("age", PyVal.int 31)] []
                 Option.none).primitive_data "age").getD .none)
             (some (SchemaInstance.mk [("age", PyVal.int 31)] [] Option.none)),
           (SchemaInstance.mk [("age", PyVal.int 31)] [] Option.none).setPythonData
             (aset (SchemaInstance.mk [("age", PyVal.int 31)] []
                 Option.none).python_data "age"
               (ageField.to_python
                 ((alookup (SchemaInstance.mk [("age", PyVal.int 31)] []
                     Option.none).primitive_data "age").getD .none)
                 (some (SchemaInstance.mk [("age", PyVal.int 31)] [] Option.none)))), 1)
       ∧ Schema.getattribute personOptions
           ((SchemaInstance.mk [("age", PyVal.int 31)] [] Option.none).setPythonData
             (aset (SchemaInstance.mk [("age", PyVal.int 31)] []
                 Option.none).python_data "age"
               (ageField.to_python
                 ((alookup (SchemaInstance.mk [("age", PyVal.int 31)] []
                     Option.none).primitive_data "age").getD .none)
                 (some (SchemaInstance.mk [("age", PyVal.int 31)] [] Option.none)))))
           "age"
         = some (ageField.to_python
               ((alookup (SchemaInstance.mk [("age", PyVal.int 31)] []
                   Option.none).primitive_data "age").getD .none)
               (some (SchemaInstance.mk [("age", PyVal.int 31)] [] Option.none)),
             (SchemaInstance.mk [("age", PyVal.int 31)] [] Option.none).setPythonData
               (aset (SchemaInstance.mk [("age", PyVal.int 31)] []
                   Option.none).python_data "age"
                 (ageField.to_python
                   ((alookup (SchemaInstance.mk [("age", PyVal.int 31)] []
                       Option.none).primitive_data "age").getD .none)
                   (some (SchemaInstance.mk [("age", PyVal.int 31)] [] Option.none)))), 0)) :=
  ⟨⟨rfl, rfl⟩,
    C4_lazy_memoized_read personOptions
      (SchemaInstance.mk [("age", PyVal.int 31)] [] Option.none)
      "age" ageField rfl rfl⟩

/-- C5 counterexample: the claim says a scalar passed to to_primitive passes
the defensive check and is returned unchanged, but the assertion in the source
admits only dict, list and None, so the scalar integer five raises the
assertion error. -/
theorem C5_counterexample :
    Schema.to_primitive bareOptions (Sum.inr (PyVal.int 5))
      = Except.error SchemaError.assertionError := rfl

/-- C5 (amended): a non-schema value reaching to_primitive passes the
defensive invariant and is returned unchanged exactly when it is a mapping, a
sequence or null; a scalar (integer, string or boolean) fails the assertion
rather than being returned. -/
theorem C5_nonschema_invariant (meta : Options) :
    (∀ xs, Schema.to_primitive meta (Sum.inr (PyVal.dict xs))
        = Except.ok (PyVal.dict xs))
    ∧ (∀ xs, Schema.to_primitive meta (Sum.inr (PyVal.list xs))
        = Except.ok (PyVal.list xs))
    ∧ Schema.to_primitive meta (Sum.inr PyVal.none) = Except.ok PyVal.none
    ∧ (∀ n, Schema.to_primitive meta (Sum.inr (PyVal.int n))
        = Except.error SchemaError.assertionError)
    ∧ (∀ s, Schema.to_primitive meta (Sum.inr (PyVal.str s))
        = Except.error SchemaError.assertionError)
    ∧ (∀ b, Schema.to_primitive meta (Sum.inr (PyVal.bool b))
        = Except.error SchemaError.assertionError) :=
  ⟨fun _ => rfl, fun _ => rfl, rfl, fun _ => rfl, fun _ => rfl, fun _ => rfl⟩

/-- A fresh document instance with empty dicts, for concrete evaluations. -/
def emptyDoc : SchemaInstance := .mk [] [] Option.none

/-- C1: with indexers I1 and I2 registered in that order, a successful save
performs exactly the sequence pre-save signal, materialization, backend save
of the collection and the materialized data, on_document_save of I1 then of
I2, post-save signal carrying the created flag computed from id resolvability
on the state at the start of save; and when the backend save raises, the trace
stops at the backend call: the pre-save signal is the only notification and no
indexer call and no post-save signal occur. -/
theorem C1_save_lifecycle (backend : Backend) (meta : Options)
    (I1 I2 : String) (s : SchemaInstance) :
    (backend.save_ok = true →
      (Document.save backend meta [I1, I2] s).1 =
        [SaveEvent.preSave, SaveEvent.materialize,
         SaveEvent.backendSave meta.collection
           (Schema.materialize meta s).primitive_data,
         SaveEvent.indexerSave I1, SaveEvent.indexerSave I2,
         SaveEvent.postSave (!truthy (backend.get_id s.primitive_data))])
    ∧ (backend.save_ok = false →
      (Document.save backend meta [I1, I2] s).1 =
        [SaveEvent.preSave, SaveEvent.materialize,
         SaveEvent.backendSave meta.collection
           (Schema.materialize meta s).primitive_data]) := by
  constructor
  · intro h
    simp [Document.save, h]
  · intro h
    simp [Document.save, h]

/-- C1 witness: a fresh document with no resolvable id, two indexers, one
backend that succeeds and one that fails. -/
theorem C1_save_lifecycle_witness :
    (Document.save (Backend.mk "_id" true) bareOptions ["I1", "I2"] emptyDoc).1 =
      [SaveEvent.preSave, SaveEvent.materialize,
       SaveEvent.backendSave bareOptions.collection
         (Schema.materialize bareOptions emptyDoc).primitive_data,
       SaveEvent.indexerSave "I1", SaveEvent.indexerSave "I2",
       SaveEvent.postSave (!truthy ((Backend.mk "_id" true).get_id
         emptyDoc.primitive_data))]
    ∧ (Document.save (Backend.mk "_id" false) bareOptions ["I1", "I2"] emptyDoc).1 =
      [SaveEvent.preSave, SaveEvent.materialize,
       SaveEvent.backendSave bareOptions.collection
         (Schema.materialize bareOptions emptyDoc).primitive_data] :=
  ⟨(C1_save_lifecycle (Backend.mk "_id" true) bareOptions "I1" "I2" emptyDoc).1 rfl,
   (C1_save_lifecycle (Backend.mk "_id" false) bareOptions "I1" "I2" emptyDoc).2 rfl⟩

/-- C7 counterexample: the claim says a registration through backend instance
A is not observed through a distinct backend instance B, but the indexer dict
is a class attribute mutated by classmethods, so the registration through the
instance numbered zero is immediately visible through the distinct instance
numbered one. -/
theorem C7_counterexample :
    BackendInstance.mk 0 ≠ BackendInstance.mk 1
    ∧ get_indexer (BackendInstance.mk 1)
        (register_indexer (BackendInstance.mk 0) (IndexerRegistry.mk [])
          "equals" "EqualsIndexer")
        "equals" = some "EqualsIndexer" :=
  ⟨by decide, rfl⟩

/-- C7 (amended): the indexer registry is a class attribute shared by every
instance of the storage class, so a registration performed through any
instance is observed through every instance, the registering one included. -/
theorem C7_shared_registry (a b : BackendInstance) (st : IndexerRegistry)
    (name index_cls : String) :
    get_indexer b (register_indexer a st name index_cls) name = some index_cls :=
  alookup_aset_self st.indexers name index_cls

/-- C10: the containment check is true for every declared field name; for a
non-declared key it is true exactly when the typed cache holds the key; hence
a free-form key present only in the primitive dict is reported absent even
though an item read of that key succeeds, and after that read, which seeds the
typed cache, the containment check reports the key present. -/
theorem C10_hasitem_vs_getitem (pp : PyVal → PyVal) (meta : Options)
    (s : SchemaInstance) (key : String) :
    ((alookup meta.fields key).isSome = true → Schema.hasitem meta s key = true)
    ∧ (alookup meta.fields key = Option.none →
        Schema.hasitem meta s key = (alookup s.python_data key).isSome)
    ∧ (∀ r, alookup meta.fields key = Option.none →
        alookup s.python_data key = Option.none →
        alookup s.primitive_data key = some r →
        Schema.hasitem meta s key = false
        ∧ Schema.getitem pp meta s key
            = some (pp r, s.setPythonData (aset s.python_data key (pp r)))
        ∧ Schema.hasitem meta
            (s.setPythonData (aset s.python_data key (pp r))) key = true) := by
  refine ⟨?_, ?_, ?_⟩
  · intro h
    unfold Schema.hasitem
    cases hfk : alookup meta.fields key with
    | none => rw [hfk] at h; cases h
    | some fd => rfl
  · intro h
    unfold Schema.hasitem
    rw [h]
  · intro r hfk hpy hpr
    refine ⟨?_, ?_, ?_⟩
    · unfold Schema.hasitem
      rw [hfk, hpy]
      rfl
    · unfold Schema.getitem
      rw [hfk, hpr, hpy]
    · unfold Schema.hasitem
      rw [hfk, setPythonData_python_data, alookup_aset_self]
      rfl

/-- C10 witness: a field-less instance holding the free-form key extra only in
its primitive dict, with the identity as the generic primitive processor. -/
theorem C10_hasitem_vs_getitem_witness :
    (alookup bareOptions.fields "extra" = Option.none
      ∧ alookup (SchemaInstance.mk [("extra", PyVal.int 7)] []
          Option.none).python_data "extra" = Option.none
      ∧ alookup (SchemaInstance.mk [("extra", PyVal.int 7)] []
          Option.none).primitive_data "extra" = some (PyVal.int 7))
    ∧ (Schema.hasitem bareOptions
         (SchemaInstance.mk [("extra", PyVal.int 7)] [] Option.none) "extra" = false
       ∧ Schema.getitem (fun v => v) bareOptions
           (SchemaInstance.mk [("extra", PyVal.int 7)] [] Option.none) "extra"
         = some ((fun (v : PyVal) => v) (PyVal.int 7),
             (SchemaInstance.mk [("extra", PyVal.int 7)] [] Option.none).setPythonData
               (aset (SchemaInstance.mk [("extra", PyVal.int 7)] []
                   Option.none).python_data "extra"
                 ((fun (v : PyVal) => v) (PyVal.int 7))))
       ∧ Schema.hasitem bareOptions
           ((SchemaInstance.mk [("extra", PyVal.int 7)] [] Option.none).setPythonData
             (aset (SchemaInstance.mk [("extra", PyVal.int 7)] []
                 Option.none).python_data "extra"
               ((fun (v : PyVal) => v) (PyVal.int 7))))
           "extra" = true) :=
  ⟨⟨rfl, rfl, rfl⟩,
    (C10_hasitem_vs_getitem (fun v => v) bareOptions
      (SchemaInstance.mk [("extra", PyVal.int 7)] [] Option.none) "extra").2.2
      (PyVal.int 7) rfl rfl rfl⟩

/-- Setting any option other than collection leaves collection unchanged. -/
theorem setOption_collection (o : Options) (name : String) (v : PyVal)
    (h : name ≠ "collection") : (o.setOption name v).collection = o.collection := by
  unfold Options.setOption
  split_ifs <;> simp_all

/-- Setting any option other than schema_key leaves schema_key unchanged. -/
theorem setOption_schema_key (o : Options) (name : String) (v : PyVal)
    (h : name ≠ "schema_key") : (o.setOption name v).schema_key = o.schema_key := by
  unfold Options.setOption
  split_ifs <;> simp_all

/-- The loop over the recognized names leaves a projection of the Options
unchanged when the projection ignores every name the Meta dict supplies; in
particular a projection at a key the Meta dict does not mention keeps its
default. -/
theorem foldl_applyMetaName_proj (proj : Options → PyVal) (key : String)
    (hset : ∀ (o : Options) (name : String) (v : PyVal),
      name ≠ key → proj (o.setOption name v) = proj o) :
    ∀ (names : List String) (o : Options) (rest : List (String × PyVal)),
      alookup rest key = Option.none →
      proj ((names.foldl Options.applyMetaName (o, rest)).1) = proj o := by
  intro names
  induction names with
  | nil => intro o rest _; rfl
  | cons name tl ih =>
      intro o rest h
      cases hl : alookup rest name with
      | none =>
          rw [List.foldl_cons,
            show Options.applyMetaName (o, rest) name = (o, rest) from by
              simp [Options.applyMetaName, hl]]
          exact ih o rest h
      | some v =>
          have hne : name ≠ key := by
            intro e
            rw [e, h] at hl
            cases hl
          have h2 : alookup (aremove rest name) key = Option.none := by
            rw [alookup_aremove_ne rest name key hne]
            exact h
          rw [List.foldl_cons,
            show Options.applyMetaName (o, rest) name
                = (o.setOption name v, aremove rest name) from by
              simp [Options.applyMetaName, hl]]
          rw [ih (o.setOption name v) (aremove rest name) h2, hset o name v hne]

/-- A successful contribute_to_class keeps a projection of the Options at its
default whenever the Meta dict does not mention the projected key and the
projection ignores both every other option write and the plural fixup. -/
theorem contribute_ok_proj (proj : Options → PyVal) (key : String)
    (hvnp : ∀ (o : Options) (v : PyVal),
      proj { o with verbose_name_plural := v } = proj o)
    (hset : ∀ (o : Options) (name : String) (v : PyVal),
      name ≠ key → proj (o.setOption name v) = proj o)
    (object_name : String) (app_label : PyVal) (m : List (String × PyVal))
    (o : Options)
    (hok : Options.contribute_to_class object_name app_label (some m) = Except.ok o)
    (hno : alookup m key = Option.none) :
    proj o = proj (Options.defaulted object_name app_label) := by
  have hno2 : alookup (m.filter (fun kv => !startsWithUnderscore kv.1)) key = Option.none :=
    alookup_filter_none m _ key hno
  simp only [Options.contribute_to_class] at hok
  split at hok
  · rw [show o = _ from (Except.ok.inj hok).symm, hvnp]
    exact foldl_applyMetaName_proj proj key hset DEFAULT_NAMES _ _ hno2
  · cases hok

/-- C6 counterexample: overriding only schema_key leaves the collection at the
precomputed default app.foo, which differs from the overridden schema key, so
the collection does not equal the schema key of the resulting registry. -/
theorem C6_counterexample :
    (Options.contribute_to_class "Foo" (PyVal.str "app")
        (some [("schema_key", PyVal.str "custom")])).map
      (fun o => (o.collection, o.schema_key))
      = Except.ok (PyVal.str "app.foo", PyVal.str "custom")
    ∧ PyVal.str "app.foo" ≠ PyVal.str "custom" := by
  refine ⟨rfl, fun h => ?_⟩
  injection h with h2
  exact absurd h2 (by decide)

/-- C6 (amended): the schema key defaults to the namespace dot the lowercased
type name; the collection defaults to that same string, computed independently
before the Meta overrides are applied — so a declaration overriding only the
schema key keeps the default string as its collection, and only when neither
is overridden do collection and schema key coincide. -/
theorem C6_collection_and_schema_key_defaults (object_name : String)
    (app_label : PyVal) (m : List (String × PyVal)) (o : Options)
    (hok : Options.contribute_to_class object_name app_label (some m) = Except.ok o)
    (hnoc : alookup m "collection" = Option.none) :
    o.collection = PyVal.str (smart_str app_label ++ "." ++ pyLower object_name)
    ∧ (alookup m "schema_key" = Option.none → o.schema_key = o.collection) := by
  have h1 : o.collection = (Options.defaulted object_name app_label).collection :=
    contribute_ok_proj (fun oo => oo.collection) "collection"
      (fun _ _ => rfl) setOption_collection object_name app_label m o hok hnoc
  constructor
  · rw [h1]
    rfl
  · intro hns
    have h2 : o.schema_key = (Options.defaulted object_name app_label).schema_key :=
      contribute_ok_proj (fun oo => oo.schema_key) "schema_key"
        (fun _ _ => rfl) setOption_schema_key object_name app_label m o hok hns
    rw [h1, h2]
    rfl

/-- The Options produced for a plain type named Foo in app app with an empty
or irrelevant Meta. -/
def fooOptions : Options :=
  { object_name := "Foo"
    module_name := "foo"
    app_label := .str "app"
    verbose_name := .str "foo"
    verbose_name_plural := .str "foos"
    db_table := Option.none
    ordering := .list [.str "_id"]
    schema_key := .str "app.foo"
    collection := .str "app.foo"
    virtual := .bool false
    proxy := .bool false
    fields := [] }

/-- C6 witness: with a Meta overriding nothing, the collection is the default
app.foo and the schema key equals the collection. -/
theorem C6_defaults_witness :
    (Options.contribute_to_class "Foo" (PyVal.str "app") (some [])
        = Except.ok fooOptions
      ∧ alookup ([] : List (String × PyVal)) "collection" = Option.none)
    ∧ (fooOptions.collection
         = PyVal.str (smart_str (PyVal.str "app") ++ "." ++ pyLower "Foo")
       ∧ (alookup ([] : List (String × PyVal)) "schema_key" = Option.none →
           fooOptions.schema_key = fooOptions.collection)) :=
  ⟨⟨rfl, rfl⟩,
    C6_collection_and_schema_key_defaults "Foo" (PyVal.str "app") [] fooOptions rfl rfl⟩

/-- A list with a member is not empty. -/
theorem isEmpty_false_of_mem {α : Type} {l : List α} {x : α} (h : x ∈ l) :
    l.isEmpty = false := by
  cases l with
  | nil => cases h
  | cons a t => rfl

/-- A Meta binding whose key none of the names mentions survives the loop over
the recognized names. -/
theorem mem_foldl_applyMetaName (kv : String × PyVal) :
    ∀ (names : List String) (o : Options) (rest : List (String × PyVal)),
      kv ∈ rest → (∀ n ∈ names, kv.1 ≠ n) →
      kv ∈ (names.foldl Options.applyMetaName (o, rest)).2 := by
  intro names
  induction names with
  | nil => intro o rest hm _; exact hm
  | cons name tl ih =>
      intro o rest hm hns
      have hne : kv.1 ≠ name := hns name (List.mem_cons.mpr (Or.inl rfl))
      have htl : ∀ n ∈ tl, kv.1 ≠ n := fun n hn => hns n (List.mem_cons.mpr (Or.inr hn))
      cases hl : alookup rest name with
      | none =>
          rw [List.foldl_cons,
            show Options.applyMetaName (o, rest) name = (o, rest) from by
              simp [Options.applyMetaName, hl]]
          exact ih o rest hm htl
      | some v =>
          rw [List.foldl_cons,
            show Options.applyMetaName (o, rest) name
                = (o.setOption name v, aremove rest name) from by
              simp [Options.applyMetaName, hl]]
          exact ih _ _ (mem_aremove_ne rest name kv hne hm) htl

/-- C8 counterexample: a configuration block whose only attribute is the
unrecognized private name does not raise; the declaration succeeds exactly as
with an empty Meta, because names starting with an underscore are dropped
before the leftover check. -/
theorem C8_counterexample :
    Options.contribute_to_class "Foo" (PyVal.str "app")
        (some [("_private_option", PyVal.int 1)]) = Except.ok fooOptions := rfl

/-- C8 (amended): an option name outside the recognized set that does not
start with an underscore makes the declaration raise the TypeError whose
payload lists the offending keys, that key among them, and no Options is
produced; attributes whose name starts with an underscore are silently
dropped instead. -/
theorem C8_invalid_meta_attr_raises (object_name : String) (app_label : PyVal)
    (m : List (String × PyVal)) (k : String) (v : PyVal)
    (hmem : (k, v) ∈ m)
    (hpriv : startsWithUnderscore k = false)
    (hrec : k ∉ DEFAULT_NAMES)
    (hvnp : k ≠ "verbose_name_plural") :
    ∃ keys, Options.contribute_to_class object_name app_label (some m)
        = Except.error (SchemaError.metaTypeError keys) ∧ k ∈ keys := by
  have hmem1 : (k, v) ∈ m.filter (fun kv => !startsWithUnderscore kv.1) := by
    refine List.mem_filter.mpr ⟨hmem, ?_⟩
    rw [hpriv]
    rfl
  have hmem2 : (k, v) ∈ (DEFAULT_NAMES.foldl Options.applyMetaName
      (Options.defaulted object_name app_label,
       m.filter (fun kv => !startsWithUnderscore kv.1))).2 :=
    mem_foldl_applyMetaName (k, v) DEFAULT_NAMES _ _ hmem1
      (fun n hn e => hrec (by rw [show k = n from e]; exact hn))
  have hmem3 : (k, v) ∈ aremove (DEFAULT_NAMES.foldl Options.applyMetaName
      (Options.defaulted object_name app_label,
       m.filter (fun kv => !startsWithUnderscore kv.1))).2 "verbose_name_plural" :=
    mem_aremove_ne _ _ _ hvnp hmem2
  refine ⟨(aremove (DEFAULT_NAMES.foldl Options.applyMetaName
      (Options.defaulted object_name app_label,
       m.filter (fun kv => !startsWithUnderscore kv.1))).2
        "verbose_name_plural").map Prod.fst, ?_, ?_⟩
  · simp only [Options.contribute_to_class, isEmpty_false_of_mem hmem3,
      Bool.false_eq_true, if_false]
  · exact List.mem_map.mpr ⟨(k, v), hmem3, rfl⟩

/-- C8 witness: a Meta containing the misspelled option name colection raises
the TypeError and the payload names the key. -/
theorem C8_invalid_meta_attr_raises_witness :
    ((("colection", PyVal.str "x") ∈ [(("colection" : String), PyVal.str "x")])
      ∧ startsWithUnderscore "colection" = false
      ∧ "colection" ∉ DEFAULT_NAMES
      ∧ "colection" ≠ "verbose_name_plural")
    ∧ (∃ keys, Options.contribute_to_class "Foo" (PyVal.str "app")
          (some [("colection", PyVal.str "x")])
          = Except.error (SchemaError.metaTypeError keys) ∧ "colection" ∈ keys) :=
  ⟨⟨List.mem_singleton.mpr rfl, rfl, by decide, by decide⟩,
    C8_invalid_meta_attr_raises "Foo" (PyVal.str "app")
      [("colection", PyVal.str "x")] "colection" (PyVal.str "x")
      (List.mem_singleton.mpr rfl) rfl (by decide) (by decide)⟩

/-- The proxy merge never disturbs a key the Meta dict already binds. -/
theorem alookup_foldl_proxyMergeStep_preserved (po : Options) (key : String) :
    ∀ (names : List String) (m : List (String × PyVal)) (w : PyVal),
      alookup m key = some w →
      alookup (names.foldl (proxyMergeStep po) m) key = some w := by
  intro names
  induction names with
  | nil => intro m w h; exact h
  | cons name tl ih =>
      intro m w h
      rw [List.foldl_cons]
      cases hl : alookup m name with
      | some u =>
          rw [show proxyMergeStep po m name = m from by simp [proxyMergeStep, hl]]
          exact ih m w h
      | none =>
          have hne : name ≠ key := by
            intro e
            rw [e, h] at hl
            cases hl
          cases hp : po.getOption name with
          | none =>
              rw [show proxyMergeStep po m name = m from by
                simp [proxyMergeStep, hl, hp]]
              exact ih m w h
          | some u =>
              rw [show proxyMergeStep po m name = aset m name u from by
                simp [proxyMergeStep, hl, hp]]
              exact ih _ w (by rw [alookup_aset_ne m name key u hne]; exact h)

/-- The proxy merge copies the ancestor value of a recognized name the proxy
Meta leaves unset. -/
theorem alookup_proxy_merge_inherits (po : Options) (key : String) (v : PyVal) :
    ∀ (names : List String) (m : List (String × PyVal)),
      key ∈ names → alookup m key = Option.none → po.getOption key = some v →
      alookup (names.foldl (proxyMergeStep po) m) key = some v := by
  intro names
  induction names with
  | nil => intro m hk _ _; cases hk
  | cons name tl ih =>
      intro m hk hm hp
      rw [List.foldl_cons]
      by_cases he : name = key
      · subst he
        rw [show proxyMergeStep po m name = aset m name v from by
          simp [proxyMergeStep, hm, hp]]
        exact alookup_foldl_proxyMergeStep_preserved po name tl _ v
          (alookup_aset_self m name v)
      · have hk2 : key ∈ tl := by
          rcases List.mem_cons.mp hk with h1 | h2
          · exact absurd h1.symm he
          · exact h2
        cases hl : alookup m name with
        | some u =>
            rw [show proxyMergeStep po m name = m from by simp [proxyMergeStep, hl]]
            exact ih m hk2 hm hp
        | none =>
            cases hpo : po.getOption name with
            | none =>
                rw [show proxyMergeStep po m name = m from by
                  simp [proxyMergeStep, hl, hpo]]
                exact ih m hk2 hm hp
            | some u =>
                rw [show proxyMergeStep po m name = aset m name u from by
                  simp [proxyMergeStep, hl, hpo]]
                exact ih _ hk2 (by rw [alookup_aset_ne m name key u he]; exact hm) hp

/-- The Options of a virtual schema type named V in app app; source step 6
skips catalog registration for it, so it never enters the registry. -/
def virtualOptions : Options :=
  { object_name := "V"
    module_name := "v"
    app_label := .str "app"
    verbose_name := .str "v"
    verbose_name_plural := .str "vs"
    db_table := Option.none
    ordering := .list [.str "_id"]
    schema_key := .str "app.v"
    collection := .str "app.v"
    virtual := .bool true
    proxy := .bool false
    fields := [] }

/-- Whether an Except is a success. -/
def exceptIsOk : Except ε α → Bool
  | .ok _ => true
  | .error _ => false

/-- C9 counterexample: constructing the virtual type V leaves the catalog
empty, yet a proxy type P inheriting from V alone is accepted — the source
only checks that some ancestor carries an Options object, not that any
ancestor is registered in the catalog, so a proxy of a never-registered
ancestor does not raise. -/
theorem C9_counterexample :
    schema_base_new "V" (some [("virtual", PyVal.bool true)]) Option.none
        Option.none "app" [] = Except.ok (virtualOptions, [])
    ∧ exceptIsOk (schema_base_new "P" (some [("proxy", PyVal.bool true)])
        Option.none (some virtualOptions) "app" []) = true := ⟨rfl, rfl⟩

/-- C9 (amended): a declaration whose Meta sets the proxy flag raises the
ValueError when no base supplies an Options object, that is, when the type
does not inherit from another schema type, registered or not; and when an
ancestor Options is present, every recognized option name the proxy Meta
leaves unset and the ancestor carries is copied from the ancestor onto the
merged Meta. -/
theorem C9_proxy_requirements (object_name module_app_label : String)
    (m : List (String × PyVal))
    (inherited_meta : Option (List (String × PyVal)))
    (registry : List (String × String))
    (po : Options) (key : String) (v : PyVal)
    (hproxy : truthy ((alookup m "proxy").getD (.bool false)) = true)
    (hkey : key ∈ DEFAULT_NAMES)
    (hnot : alookup m key = Option.none)
    (hpar : po.getOption key = some v) :
    schema_base_new object_name (some m) inherited_meta Option.none
        module_app_label registry = Except.error SchemaError.proxyValueError
    ∧ alookup (proxy_merge_meta m po) key = some v := by
  constructor
  · simp only [schema_base_new, hproxy, if_true]
  · exact alookup_proxy_merge_inherits po key v DEFAULT_NAMES m hkey hnot hpar

/-- C9 witness: a proxy Meta with only the proxy flag, no schema ancestor for
the error half, and the virtual ancestor V for the inheritance half, copying
its collection. -/
theorem C9_proxy_requirements_witness :
    (truthy ((alookup [("proxy", PyVal.bool true)] "proxy").getD (.bool false)) = true
      ∧ "collection" ∈ DEFAULT_NAMES
      ∧ alookup [("proxy", PyVal.bool true)] "collection" = Option.none
      ∧ virtualOptions.getOption "collection" = some (PyVal.str "app.v"))
    ∧ (schema_base_new "P" (some [("proxy", PyVal.bool true)]) Option.none
          Option.none "app" [] = Except.error SchemaError.proxyValueError
       ∧ alookup (proxy_merge_meta [("proxy", PyVal.bool true)] virtualOptions)
           "collection" = some (PyVal.str "app.v")) :=
  ⟨⟨rfl, by decide, rfl, rfl⟩,
    C9_proxy_requirements "P" "app" [("proxy", PyVal.bool true)] Option.none []
      virtualOptions "collection" (PyVal.str "app.v") rfl (by decide) rfl rfl⟩
